import Mathlib

/-!
Verification of the invoice-extraction pipeline of the `studio` repository.

The embedded code comes from two files:
- `src/ai/flows/parse-invoice.ts`: the zod output schema (`ExtractedDataSchema`
  and its nested schemas) against which every candidate object returned by the
  external extraction capability is validated before being handed back to the
  caller, and the flow `parseInvoiceFlow` that runs this validation.
- `src/app/page.tsx`: the session state (raster image, file name, editable JSON
  text), the constant `initialJson` template, the PDF rasterizer
  `convertPdfToImage` (page 1 at scale 1.5, encoded as a PNG data URL), and the
  handlers `handleFileSelect` and `handleParse`.

JSON values are modelled with integer numerals (every numeral appearing in the
code and in the claims is an integer). Validation follows the documented zod
parse semantics of the schema combinators the source uses (`z.string()`,
`z.number()`, `.nullable()`, `z.array(...)`, `z.object(...)` in default strip
mode): a declared key missing from the input object is an error (there is no
`.optional()` or `.default(...)` anywhere in the source), a `null` value is
accepted exactly under `.nullable()`, unknown keys are silently dropped, and
issues from every field are accumulated in schema declaration order.
-/

namespace Studio

/-- JSON values as produced and consumed by the pipeline. -/
inductive Json where
  | null : Json
  | bool : Bool → Json
  | num : Int → Json
  | str : String → Json
  | arr : List Json → Json
  | obj : List (String × Json) → Json

mutual

/-- The zod schema combinators used by `parse-invoice.ts`. -/
inductive Schema where
  | string : Schema
  | number : Schema
  | nullable : Schema → Schema
  | array : Schema → Schema
  | object : FieldList → Schema

/-- The declared fields of an object schema, in declaration order. -/
inductive FieldList where
  | nil : FieldList
  | fcons : String → Schema → FieldList → FieldList

end

/-- Build a declared field list from a list of name and schema pairs. -/
def FieldList.ofList : List (String × Schema) → FieldList
  | [] => .nil
  | (k, s) :: rest => .fcons k s (FieldList.ofList rest)

/-- Kinds of validation failures, following the error taxonomy of the spec:
a `schemaViolation` is a declared field missing from the candidate object, a
`typeMismatch` is a value that is present but has the wrong primitive type
(in zod both are invalid_type issues, distinguished by whether the received
value is undefined). -/
inductive IssueKind where
  | schemaViolation : IssueKind
  | typeMismatch : IssueKind
deriving DecidableEq

/-- A single validation issue: its kind and the path of the offending field. -/
structure Issue where
  kind : IssueKind
  path : List String
deriving DecidableEq

/-- First value bound to key `k` in a JSON object field list (JS objects hold
each key at most once). -/
def lookupField (k : String) (kvs : List (String × Json)) : Option Json :=
  (kvs.find? (fun kv => kv.1 = k)).map (fun kv => kv.2)

/-- Combine two validation results, accumulating issues from both sides in
order, as the zod object and array parsers do. -/
def combine {α β γ : Type} (a : Except (List Issue) α) (b : Except (List Issue) β)
    (f : α → β → γ) : Except (List Issue) γ :=
  match a, b with
  | .ok x, .ok y => .ok (f x y)
  | .error e, .ok _ => .error e
  | .ok _, .error e => .error e
  | .error e, .error e2 => .error (e ++ e2)

/-- Validate every element of a JSON array with the validator of the item
schema, element indices counting up from the given one, as in zod issue
paths. -/
def validateElemsAux (f : Nat → Json → Except (List Issue) Json) :
    Nat → List Json → Except (List Issue) (List Json)
  | _, [] => .ok []
  | i, x :: xs =>
    combine (f i x) (validateElemsAux f (i + 1) xs) (fun y ys => y :: ys)

mutual

/-- Validate a JSON value against a schema at a path, mirroring zod parse:
strings and numbers must have exactly that primitive type, `.nullable()`
additionally accepts `null`, arrays and objects recurse, and unknown object
keys are stripped. Issues accumulate in schema declaration order. -/
def validate : Schema → List String → Json → Except (List Issue) Json
  | .string, path, v =>
    match v with
    | .str s => .ok (.str s)
    | _ => .error [⟨.typeMismatch, path⟩]
  | .number, path, v =>
    match v with
    | .num n => .ok (.num n)
    | _ => .error [⟨.typeMismatch, path⟩]
  | .nullable s, path, v =>
    match v with
    | .null => .ok .null
    | v => validate s path v
  | .array s, path, v =>
    match v with
    | .arr xs =>
      (validateElemsAux (fun i x => validate s (path ++ [toString i]) x) 0 xs).map Json.arr
    | _ => .error [⟨.typeMismatch, path⟩]
  | .object fields, path, v =>
    match v with
    | .obj kvs => (validateFields fields path kvs).map Json.obj
    | _ => .error [⟨.typeMismatch, path⟩]
termination_by structural s _ _ => s

/-- Validate a JSON object against declared fields in declaration order: a
declared key missing from the object is a `schemaViolation`; a present value
is validated against the field schema; keys of the object not declared in the
schema are dropped. -/
def validateFields : FieldList → List String → List (String × Json) →
    Except (List Issue) (List (String × Json))
  | .nil, _, _ => .ok []
  | .fcons k s rest, path, kvs =>
    let fieldRes : Except (List Issue) Json :=
      match lookupField k kvs with
      | none => .error [⟨.schemaViolation, path ++ [k]⟩]
      | some v => validate s (path ++ [k]) v
    combine fieldRes (validateFields rest path kvs)
      (fun v rs => (k, v) :: rs)
termination_by structural fields _ _ => fields

end

/-- Field list of `TaxItemSchema` (parse-invoice.ts lines 23 to 27). -/
def TaxItemFields : List (String × Schema) :=
  [("tax_type", .string), ("tax_rate", .number), ("tax_amount", .number)]

/-- `TaxItemSchema` from parse-invoice.ts. -/
def TaxItemSchema : Schema := .object (.ofList TaxItemFields)

/-- Field list of `InvoiceItemSchema` (parse-invoice.ts lines 29 to 38). -/
def InvoiceItemFields : List (String × Schema) :=
  [("sl.no", .nullable .number), ("hsn", .nullable .string), ("description", .string),
   ("unit_price", .number), ("qty", .number), ("net_amount", .number),
   ("tax", .array TaxItemSchema), ("total_amount", .number)]

/-- `InvoiceItemSchema` from parse-invoice.ts. -/
def InvoiceItemSchema : Schema := .object (.ofList InvoiceItemFields)

/-- Field list of `BankDetailsSchema` (parse-invoice.ts lines 40 to 46). -/
def BankDetailsFields : List (String × Schema) :=
  [("account_name", .nullable .string), ("account_number", .nullable .string),
   ("bank_name", .nullable .string), ("branch", .nullable .string),
   ("ifsc", .nullable .string)]

/-- `BankDetailsSchema` from parse-invoice.ts. -/
def BankDetailsSchema : Schema := .object (.ofList BankDetailsFields)

/-- Field list of `ContactDetailsSchema` (parse-invoice.ts lines 48 to 51). -/
def ContactDetailsFields : List (String × Schema) :=
  [("phone", .nullable .string), ("email", .nullable .string)]

/-- `ContactDetailsSchema` from parse-invoice.ts. -/
def ContactDetailsSchema : Schema := .object (.ofList ContactDetailsFields)

/-- Field list of `SellerSchema` (parse-invoice.ts lines 53 to 63). -/
def SellerFields : List (String × Schema) :=
  [("name", .string), ("gst", .nullable .string), ("pan", .nullable .string),
   ("address", .nullable .string), ("state", .nullable .string),
   ("pincode", .nullable .string), ("country", .nullable .string),
   ("bank_details", .nullable BankDetailsSchema),
   ("contact_details", .nullable ContactDetailsSchema)]

/-- `SellerSchema` from parse-invoice.ts. -/
def SellerSchema : Schema := .object (.ofList SellerFields)

/-- Field list of `BuyerSchema` (parse-invoice.ts lines 65 to 76). -/
def BuyerFields : List (String × Schema) :=
  [("name", .string), ("gst", .nullable .string), ("pan", .nullable .string),
   ("address", .nullable .string), ("state", .nullable .string),
   ("pincode", .nullable .string), ("country", .nullable .string),
   ("contact_details", .nullable ContactDetailsSchema),
   ("billing_address", .nullable .string), ("shipping_address", .nullable .string)]

/-- `BuyerSchema` from parse-invoice.ts. -/
def BuyerSchema : Schema := .object (.ofList BuyerFields)

/-- Field list of `ExtractedDataSchema` (parse-invoice.ts lines 78 to 93), in
source declaration order. `invoice_number`, `invoice_date`, `seller`, `buyer`,
`invoice_items` and `invoice_value` are non-nullable; everything else is
`.nullable()`. No field has `.optional()` or `.default(...)`. -/
def ExtractedDataFields : List (String × Schema) :=
  [("order_number", .nullable .string), ("invoice_number", .string),
   ("order_date", .nullable .string), ("invoice_id", .nullable .string),
   ("invoice_date", .string), ("seller", SellerSchema), ("buyer", BuyerSchema),
   ("place_of_supply", .nullable .string), ("place_of_delivery", .nullable .string),
   ("invoice_items", .array InvoiceItemSchema), ("transaction_id", .nullable .string),
   ("date_time", .nullable .string), ("invoice_value", .number),
   ("mode_of_payment", .nullable .string)]

/-- `ExtractedDataSchema` from parse-invoice.ts: the extraction output schema. -/
def ExtractedDataSchema : Schema := .object (.ofList ExtractedDataFields)

/-- The declared top-level key set of the extraction schema, in declaration
order. -/
def schemaTopKeys : List String := ExtractedDataFields.map Prod.fst

/-- Normalization of a candidate object returned by the external extraction
capability: validation against `ExtractedDataSchema`, as `parseInvoiceFlow`
performs through its declared output schema. -/
def normalize (candidate : Json) : Except (List Issue) Json :=
  validate ExtractedDataSchema [] candidate

/-- JSON string quoting as JSON.stringify performs it: the value wrapped in
double quotes, with backslash, double quote and the common control characters
escaped. -/
def quoteStr (s : String) : String :=
  "\"" ++ String.join (s.toList.map (fun c =>
    if c = '"' then "\\\""
    else if c = '\\' then "\\\\"
    else if c = '\n' then "\\n"
    else if c = '\t' then "\\t"
    else if c = '\r' then "\\r"
    else String.mk [c])) ++ "\""

/-- A run of `n` spaces. -/
def indentStr (n : Nat) : String := String.mk (List.replicate n ' ')

mutual

/-- Pretty-print a JSON value at nesting level `lvl`, mirroring
`JSON.stringify(value, null, 2)`: two spaces of indentation per level, empty
arrays and objects printed inline, one element per line otherwise. -/
def stringifyAt : Nat → Json → String
  | _, .null => "null"
  | _, .bool b => if b then "true" else "false"
  | _, .num n => toString n
  | _, .str s => quoteStr s
  | _, .arr [] => "[]"
  | lvl, .arr (x :: xs) =>
    "[\n" ++ stringifyElems (lvl + 1) x xs ++ "\n" ++ indentStr (lvl * 2) ++ "]"
  | _, .obj [] => "\x7b\x7d"
  | lvl, .obj (kv :: kvs) =>
    "\x7b\n" ++ stringifyMembers (lvl + 1) kv kvs ++ "\n" ++ indentStr (lvl * 2) ++ "\x7d"
termination_by _ v => (sizeOf v, 0)

/-- Pretty-print the comma-separated, newline-terminated elements of a
nonempty array. -/
def stringifyElems : Nat → Json → List Json → String
  | lvl, x, [] => indentStr (lvl * 2) ++ stringifyAt lvl x
  | lvl, x, y :: ys =>
    indentStr (lvl * 2) ++ stringifyAt lvl x ++ ",\n" ++ stringifyElems lvl y ys
termination_by _ x xs => (sizeOf x + sizeOf xs, 1)

/-- Pretty-print the comma-separated, newline-terminated members of a
nonempty object, each as a quoted key, a colon and a space, and the value. -/
def stringifyMembers : Nat → (String × Json) → List (String × Json) → String
  | lvl, (k, v), [] => indentStr (lvl * 2) ++ quoteStr k ++ ": " ++ stringifyAt lvl v
  | lvl, (k, v), kv :: kvs =>
    indentStr (lvl * 2) ++ quoteStr k ++ ": " ++ stringifyAt lvl v ++ ",\n" ++
      stringifyMembers lvl kv kvs
termination_by _ kv kvs => (sizeOf kv + sizeOf kvs, 1)

end

/-- `JSON.stringify(value, null, 2)`: pretty-printed JSON text with stable
two-space indentation, member order preserved. -/
def stringify (v : Json) : String := stringifyAt 0 v

/-- Field list of the `initialJson` constant (page.tsx lines 22 to 37), in the
source order. -/
def initialJsonFields : List (String × Json) :=
  [("order_number", .null),
   ("invoice_number", .str ""),
   ("order_date", .null),
   ("invoice_id", .str ""),
   ("invoice_date", .str ""),
   ("seller", .obj
     [("name", .str ""), ("gst", .str ""), ("pan", .str ""), ("address", .str ""),
      ("state", .str ""), ("pincode", .str ""), ("country", .null),
      ("bank_details", .obj
        [("account_name", .str ""), ("account_number", .str ""), ("bank_name", .str ""),
         ("branch", .str ""), ("ifsc", .str "")]),
      ("contact_details", .obj [("phone", .null), ("email", .null)])]),
   ("buyer", .obj
     [("name", .str ""), ("gst", .str ""), ("pan", .null), ("address", .str ""),
      ("state", .str ""), ("pincode", .str ""), ("country", .null),
      ("contact_details", .obj [("email", .null), ("phone", .null)]),
      ("billing_address", .str ""), ("shipping_address", .str "")]),
   ("place_of_supply", .str ""),
   ("place_of_delivery", .null),
   ("invoice_items", .arr []),
   ("transaction_id", .null),
   ("date_time", .null),
   ("invoice_value", .num 0),
   ("mode_of_payment", .null)]

/-- The `initialJson` template constant of page.tsx. -/
def initialJson : Json := .obj initialJsonFields

/-- The initial editable JSON text: `JSON.stringify(initialJson, null, 2)`
(page.tsx line 42, and again in `handleFileSelect` at line 94). -/
def initialJsonText : String := stringify initialJson

mutual

/-- Whether a JSON value is an all-default template value: null, the empty
string, an empty array, or an object all of whose members are all-default. -/
def scalarDefault : Json → Bool
  | .null => true
  | .bool _ => false
  | .num _ => false
  | .str s => s == ""
  | .arr xs => xs.isEmpty
  | .obj kvs => scalarDefaultMembers kvs

/-- `scalarDefault` over the members of an object. -/
def scalarDefaultMembers : List (String × Json) → Bool
  | [] => true
  | kv :: kvs => scalarDefault kv.2 && scalarDefaultMembers kvs

end

/-- The base64 alphabet, RFC 4648. -/
def base64Chars : List Char :=
  "ABCDEFGHIJKLMNOPQRSTUVWXYZabcdefghijklmnopqrstuvwxyz0123456789+/".toList

/-- Character with index `n` (taken modulo 64) in the base64 alphabet. -/
def b64Char (n : Nat) : Char := base64Chars.getD (n % 64) 'A'

/-- Standard base64 encoding of a byte sequence, with padding, RFC 4648:
groups of three bytes become four alphabet characters; a final group of one
or two bytes is padded with = signs. -/
def base64Encode : List Nat → String
  | [] => ""
  | [b0] =>
    String.mk [b64Char (b0 / 4), b64Char (b0 % 4 * 16), '=', '=']
  | [b0, b1] =>
    String.mk [b64Char (b0 / 4), b64Char (b0 % 4 * 16 + b1 / 16),
               b64Char (b1 % 16 * 4), '=']
  | b0 :: b1 :: b2 :: rest =>
    String.mk [b64Char (b0 / 4), b64Char (b0 % 4 * 16 + b1 / 16),
               b64Char (b1 % 16 * 4 + b2 / 64), b64Char (b2 % 64)] ++
      base64Encode rest

/-- A render viewport, as produced by `page.getViewport` in pdf.js. -/
structure Viewport where
  width : Rat
  height : Rat

/-- A page of a decoded PDF document: its base dimensions and its rendering,
which, given a viewport, yields the bytes of the PNG raster that the canvas
holds after `page.render` and `canvas.toDataURL('image/png')` re-encoding
(before base64). The rendering itself is performed by pdf.js and the canvas,
outside this repository, so it is kept abstract here. -/
structure PdfPage where
  width : Rat
  height : Rat
  render : Viewport → List Nat

/-- `page.getViewport({ scale })`: the page dimensions scaled uniformly. -/
def getViewport (p : PdfPage) (scale : Rat) : Viewport :=
  ⟨p.width * scale, p.height * scale⟩

/-- The fixed scale factor of `convertPdfToImage` (page.tsx line 63). -/
def pdfScale : Rat := 1.5

/-- The data URL head produced by `canvas.toDataURL('image/png')`: the PNG
media type, a lossless raster format. -/
def pngDataUrlHead : String := "data:image/png;base64,"

/-- `convertPdfToImage` of page.tsx, lines 54 to 88, modelled on a decoded
document given as its page list: load page 1 only (`pdf.getPage(1)`; later
pages are ignored), compute the viewport at the fixed scale 1.5, size the
canvas to that viewport, render the page onto it, and return
`canvas.toDataURL('image/png')`, the PNG data URL whose payload is the
standard base64 encoding of the raster bytes. Returns `none` when the
document has no page to decode (the failure branch, which clears the image
and file name and leaves the JSON text alone). -/
def convertPdfToImage (pages : List PdfPage) : Option String :=
  match pages.head? with
  | none => none
  | some page =>
    some (pngDataUrlHead ++ base64Encode (page.render (getViewport page pdfScale)))

/-- The session state held by the `Home` component of page.tsx: the raster
image data URL, the selected file name, the editable JSON text, the loading
flag and the status line. -/
structure SessionState where
  invoiceImage : Option String
  fileName : Option String
  jsonData : String
  isLoading : Bool
  status : String

/-- A selected file as the handlers see it: its name and its declared media
type. -/
structure FileInfo where
  name : String
  type : String

/-- `handleFileSelect` of page.tsx, lines 90 to 103: when a file is selected
and its declared media type is `application/pdf`, store the file name, clear
the raster image, reset the editable JSON text to the initial template, and
start the PDF conversion (whose first synchronous step sets the status line);
for any other selected file, only show a toast, changing nothing; with no
file, do nothing. The Boolean of the result records whether rasterization was
started. -/
def handleFileSelect (st : SessionState) (file : Option FileInfo) :
    SessionState × Bool :=
  match file with
  | some f =>
    if f.type = "application/pdf" then
      ({ st with fileName := some f.name,
                 invoiceImage := none,
                 jsonData := initialJsonText,
                 status := "Converting PDF to image..." }, true)
    else (st, false)
  | none => (st, false)

/-- The outcome of the `parseInvoice` call as `handleParse` observes it:
either the call threw (carrying a message), or it returned an output whose
`extractedData` is null or a JSON object. -/
abbrev ParseOutcome : Type := Except String (Option Json)

/-- `handleParse` of page.tsx, lines 132 to 176, run to completion on a given
outcome of the `parseInvoice` call: with no raster image, only a toast is
shown and nothing changes; on an outcome with extracted data, the editable
JSON text becomes `JSON.stringify(result.extractedData, null, 2)` and, after
the simulated ERP push timeout, the status line reports success and loading
ends; on a null `extractedData` the handler throws and its catch block only
sets the error status; on a thrown error likewise. The editable JSON text is
written only in the success branch. -/
def handleParse (st : SessionState) (outcome : ParseOutcome) : SessionState :=
  match st.invoiceImage with
  | none => st
  | some _ =>
    match outcome with
    | .ok (some extractedData) =>
      { st with jsonData := stringify extractedData,
                status := "Successfully pushed to ERP.",
                isLoading := false }
    | .ok none =>
      { st with status := "Error: No data was extracted from the invoice.",
                isLoading := false }
    | .error msg =>
      { st with status := "Error: " ++ msg,
                isLoading := false }

/-- A sample valid extraction result, exactly in schema declaration order,
with the end-to-end values of the spec scenario (seller Acme Ltd, invoice
INV-001, one line item 100 times 2 with an 18 percent tax of 36, total 236,
invoice_value 236) and all other fields null, empty string or empty array. -/
def sampleResultFields : List (String × Json) :=
  [("order_number", .null),
   ("invoice_number", .str "INV-001"),
   ("order_date", .null),
   ("invoice_id", .str ""),
   ("invoice_date", .str "2025-02-11"),
   ("seller", .obj
     [("name", .str "Acme Ltd"), ("gst", .str ""), ("pan", .str ""), ("address", .str ""),
      ("state", .str ""), ("pincode", .str ""), ("country", .null),
      ("bank_details", .obj
        [("account_name", .str ""), ("account_number", .str ""), ("bank_name", .str ""),
         ("branch", .str ""), ("ifsc", .str "")]),
      ("contact_details", .obj [("phone", .null), ("email", .null)])]),
   ("buyer", .obj
     [("name", .str ""), ("gst", .str ""), ("pan", .null), ("address", .str ""),
      ("state", .str ""), ("pincode", .str ""), ("country", .null),
      ("contact_details", .obj [("phone", .null), ("email", .null)]),
      ("billing_address", .str ""), ("shipping_address", .str "")]),
   ("place_of_supply", .str ""),
   ("place_of_delivery", .null),
   ("invoice_items", .arr [.obj
     [("sl.no", .num 1), ("hsn", .null), ("description", .str "Widget"),
      ("unit_price", .num 100), ("qty", .num 2), ("net_amount", .num 200),
      ("tax", .arr [.obj [("tax_type", .str "GST"), ("tax_rate", .num 18),
                          ("tax_amount", .num 36)]]),
      ("total_amount", .num 236)]]),
   ("transaction_id", .null),
   ("date_time", .null),
   ("invoice_value", .num 236),
   ("mode_of_payment", .null)]

/-- A sample three-byte page rendering, for concrete instantiations. -/
def samplePage : PdfPage := ⟨10, 20, fun _ => [77, 97, 110]⟩

/-- The validation result of one declared object field: a `schemaViolation`
when the key is missing, otherwise the validation of the bound value. -/
def fieldResult (k : String) (s : Schema) (path : List String)
    (kvs : List (String × Json)) : Except (List Issue) Json :=
  match lookupField k kvs with
  | none => .error [⟨.schemaViolation, path ++ [k]⟩]
  | some v => validate s (path ++ [k]) v

lemma validateFields_cons (k : String) (s : Schema) (rest : FieldList)
    (path : List String) (kvs : List (String × Json)) :
    validateFields (.fcons k s rest) path kvs =
      combine (fieldResult k s path kvs) (validateFields rest path kvs)
        (fun v rs => (k, v) :: rs) := rfl

lemma combine_ok {α β γ : Type} {a : Except (List Issue) α} {b : Except (List Issue) β}
    {f : α → β → γ} {c : γ} (h : combine a b f = .ok c) :
    ∃ x y, a = .ok x ∧ b = .ok y ∧ c = f x y := by
  cases a with
  | ok x =>
    cases b with
    | ok y => exact ⟨x, y, rfl, rfl, by simpa [combine] using h.symm⟩
    | error e => simp [combine] at h
  | error e => cases b <;> simp [combine] at h

lemma combine_error_left_mem {α β γ : Type} {a : Except (List Issue) α}
    {b : Except (List Issue) β} {f : α → β → γ} {e : List Issue} {x : Issue}
    (ha : a = .error e) (hx : x ∈ e) :
    ∃ E, combine a b f = .error E ∧ x ∈ E := by
  subst ha
  cases b with
  | ok y => exact ⟨e, rfl, hx⟩
  | error e2 => exact ⟨e ++ e2, rfl, List.mem_append_left e2 hx⟩

lemma combine_error_right_mem {α β γ : Type} {a : Except (List Issue) α}
    {b : Except (List Issue) β} {f : α → β → γ} {e : List Issue} {x : Issue}
    (hb : b = .error e) (hx : x ∈ e) :
    ∃ E, combine a b f = .error E ∧ x ∈ E := by
  subst hb
  cases a with
  | ok y => exact ⟨e, rfl, hx⟩
  | error e1 => exact ⟨e1 ++ e, rfl, List.mem_append_right e1 hx⟩

lemma validateFields_field_issue {l : List (String × Schema)} {path : List String}
    {kvs : List (String × Json)} {k : String} {s : Schema} {es : List Issue} {x : Issue}
    (hmem : (k, s) ∈ l) (hres : fieldResult k s path kvs = .error es) (hx : x ∈ es) :
    ∃ E, validateFields (.ofList l) path kvs = .error E ∧ x ∈ E := by
  induction l with
  | nil => cases hmem
  | cons hd rest ih =>
    obtain ⟨k0, s0⟩ := hd
    rw [FieldList.ofList, validateFields_cons]
    rcases List.mem_cons.mp hmem with heq | hmem2
    · obtain ⟨hk, hs⟩ := Prod.mk.injEq .. ▸ heq
      subst hk; subst hs
      exact combine_error_left_mem hres hx
    · obtain ⟨E, hE, hxE⟩ := ih hmem2
      exact combine_error_right_mem hE hxE

lemma validateFields_ok_keys {l : List (String × Schema)} {path : List String}
    {kvs : List (String × Json)} {out : List (String × Json)}
    (h : validateFields (.ofList l) path kvs = .ok out) :
    out.map Prod.fst = l.map Prod.fst := by
  induction l generalizing out with
  | nil =>
    rw [FieldList.ofList, validateFields] at h
    cases h
    rfl
  | cons hd rest ih =>
    obtain ⟨k, s⟩ := hd
    rw [FieldList.ofList, validateFields_cons] at h
    obtain ⟨v, rs, _, hb, hout⟩ := combine_ok h
    subst hout
    simp [ih hb]

lemma lookupField_cons_ne {k q : String} {v : Json} {kvs : List (String × Json)}
    (h : q ≠ k) : lookupField q ((k, v) :: kvs) = lookupField q kvs := by
  simp [lookupField, List.find?, h.symm]

lemma validateFields_drop_undeclared {l : List (String × Schema)} {path : List String}
    {k : String} {v : Json} {kvs : List (String × Json)}
    (h : k ∉ l.map Prod.fst) :
    validateFields (.ofList l) path ((k, v) :: kvs) = validateFields (.ofList l) path kvs := by
  induction l with
  | nil => rfl
  | cons hd rest ih =>
    obtain ⟨k0, s0⟩ := hd
    rw [FieldList.ofList, validateFields_cons, validateFields_cons]
    have hk0 : k0 ≠ k := by
      intro he
      exact h (by simp [he])
    have hrest : k ∉ rest.map Prod.fst := by
      intro hm
      exact h (by simp [hm])
    rw [ih hrest]
    have hfr : fieldResult k0 s0 path ((k, v) :: kvs) = fieldResult k0 s0 path kvs := by
      rw [fieldResult, fieldResult, lookupField_cons_ne hk0]
    rw [hfr]

lemma normalize_obj (kvs : List (String × Json)) :
    normalize (.obj kvs) =
      (validateFields (.ofList ExtractedDataFields) [] kvs).map Json.obj := rfl

lemma normalize_ok_shape {kvs : List (String × Json)} {r : Json}
    (h : normalize (.obj kvs) = .ok r) :
    ∃ out, r = .obj out ∧ out.map Prod.fst = schemaTopKeys := by
  rw [normalize_obj] at h
  cases hvf : validateFields (.ofList ExtractedDataFields) [] kvs with
  | error e => rw [hvf] at h; simp [Except.map] at h
  | ok out =>
    rw [hvf] at h
    simp [Except.map] at h
    exact ⟨out, h.symm, validateFields_ok_keys hvf⟩

/-- Claim C1: for every candidate object in which the field invoice_value is
present but holds a string such as "47200" rather than a number, validation
of the candidate against the extraction schema fails, and the error carries a
TypeMismatch at path invoice_value; the string is never silently coerced to a
number. -/
theorem normalize_string_invoice_value_typeMismatch
    (kvs : List (String × Json)) (s : String)
    (h : lookupField "invoice_value" kvs = some (.str s)) :
    ∃ E, normalize (.obj kvs) = .error E ∧
      Issue.mk .typeMismatch ["invoice_value"] ∈ E := by
  have hmem : ("invoice_value", Schema.number) ∈ ExtractedDataFields := by
    simp [ExtractedDataFields]
  have hres : fieldResult "invoice_value" .number [] kvs =
      .error [⟨.typeMismatch, ["invoice_value"]⟩] := by
    unfold fieldResult
    rw [h]
    rfl
  obtain ⟨E, hE, hx⟩ := validateFields_field_issue hmem hres (List.mem_singleton.mpr rfl)
  exact ⟨E, by rw [normalize_obj, hE]; rfl, hx⟩

/-- Witness for C1: the candidate binding invoice_value to the string 47200
fails validation with a TypeMismatch at invoice_value. -/
theorem normalize_string_invoice_value_typeMismatch_witness :
    ∃ E, normalize (.obj [("invoice_value", .str "47200")]) = .error E ∧
      Issue.mk .typeMismatch ["invoice_value"] ∈ E :=
  normalize_string_invoice_value_typeMismatch [("invoice_value", .str "47200")] "47200" rfl

/-- Claim C2: for every candidate object from which the non-nullable required
field invoice_number is absent, normalization fails, the error carrying a
SchemaViolation naming the path invoice_number; it is never silently
defaulted. -/
theorem normalize_missing_invoice_number_schemaViolation
    (kvs : List (String × Json)) (h : lookupField "invoice_number" kvs = none) :
    ∃ E, normalize (.obj kvs) = .error E ∧
      Issue.mk .schemaViolation ["invoice_number"] ∈ E := by
  have hmem : ("invoice_number", Schema.string) ∈ ExtractedDataFields := by
    simp [ExtractedDataFields]
  have hres : fieldResult "invoice_number" .string [] kvs =
      .error [⟨.schemaViolation, ["invoice_number"]⟩] := by
    unfold fieldResult
    rw [h]
    rfl
  obtain ⟨E, hE, hx⟩ := validateFields_field_issue hmem hres (List.mem_singleton.mpr rfl)
  exact ⟨E, by rw [normalize_obj, hE]; rfl, hx⟩

/-- Witness for C2: the empty candidate object fails validation with a
SchemaViolation at invoice_number. -/
theorem normalize_missing_invoice_number_schemaViolation_witness :
    ∃ E, normalize (.obj []) = .error E ∧
      Issue.mk .schemaViolation ["invoice_number"] ∈ E :=
  normalize_missing_invoice_number_schemaViolation [] rfl

/-- Counterexample to C3 as stated: the candidate holding every schema field
of the initial template except invoice_items does not normalize successfully
to a result with invoice_items bound to the empty array; normalization fails
with a SchemaViolation naming invoice_items, because the zod schema declares
invoice_items as a required array with no default. -/
theorem normalize_missing_invoice_items_fails :
    normalize (.obj (initialJsonFields.filter (fun kv => kv.1 ≠ "invoice_items"))) =
      .error [⟨.schemaViolation, ["invoice_items"]⟩] := rfl

/-- Claim C3 (amended): for every candidate object from which the array field
invoice_items is absent, normalization fails, the error carrying a
SchemaViolation naming the path invoice_items; the missing array is not
defaulted to the empty array and not set to null. -/
theorem normalize_missing_invoice_items_schemaViolation
    (kvs : List (String × Json)) (h : lookupField "invoice_items" kvs = none) :
    ∃ E, normalize (.obj kvs) = .error E ∧
      Issue.mk .schemaViolation ["invoice_items"] ∈ E := by
  have hmem : ("invoice_items", Schema.array InvoiceItemSchema) ∈ ExtractedDataFields := by
    simp [ExtractedDataFields]
  have hres : fieldResult "invoice_items" (.array InvoiceItemSchema) [] kvs =
      .error [⟨.schemaViolation, ["invoice_items"]⟩] := by
    unfold fieldResult
    rw [h]
    rfl
  obtain ⟨E, hE, hx⟩ := validateFields_field_issue hmem hres (List.mem_singleton.mpr rfl)
  exact ⟨E, by rw [normalize_obj, hE]; rfl, hx⟩

/-- Witness for the amended C3: the empty candidate object fails validation
with a SchemaViolation at invoice_items. -/
theorem normalize_missing_invoice_items_schemaViolation_witness :
    ∃ E, normalize (.obj []) = .error E ∧
      Issue.mk .schemaViolation ["invoice_items"] ∈ E :=
  normalize_missing_invoice_items_schemaViolation [] rfl

/-- Claim C4: for every candidate object accepted by normalize, the result is
an object whose key list equals exactly the key list declared by the
extraction schema, in declaration order; and a candidate key not declared in
the schema is dropped without error — prepending such a key to the candidate
leaves the result of normalization unchanged. -/
theorem normalize_key_set_exact
    (kvs : List (String × Json)) (r : Json) (k : String) (v : Json)
    (hok : normalize (.obj kvs) = .ok r) (hk : k ∉ schemaTopKeys) :
    (∃ out, r = .obj out ∧ out.map Prod.fst = schemaTopKeys) ∧
      normalize (.obj ((k, v) :: kvs)) = normalize (.obj kvs) := by
  refine ⟨normalize_ok_shape hok, ?_⟩
  rw [normalize_obj, normalize_obj, validateFields_drop_undeclared hk]

/-- Witness for C4 at the sample result, with the undeclared key extra_key. -/
theorem normalize_key_set_exact_witness :
    ((∃ out, Json.obj sampleResultFields = Json.obj out ∧
        out.map Prod.fst = schemaTopKeys) ∧
      normalize (.obj (("extra_key", .num 1) :: sampleResultFields)) =
        normalize (.obj sampleResultFields)) :=
  normalize_key_set_exact sampleResultFields (.obj sampleResultFields) "extra_key"
    (.num 1) rfl (by decide)

/-- Counterexample to C5 as stated: the initial template binds the scalar
field invoice_value to the number 0, which is neither null nor the empty
string (nor any other all-default value). -/
theorem initialJson_invoice_value_zero :
    lookupField "invoice_value" initialJsonFields = some (.num 0) ∧
      scalarDefault (.num 0) = false := ⟨rfl, rfl⟩

/-- Claim C5 (amended): the initial template of the Edit-State Store declares
exactly the schema top-level keys in order, validates against the extraction
schema (so every schema-declared field is present at every level), and every
field other than invoice_value is null, the empty string, the empty array, or
an object of such values; invoice_value holds the number 0 and invoice_items
the empty array. -/
theorem initialJson_default_template :
    (normalize initialJson).isOk = true ∧
      initialJsonFields.map Prod.fst = schemaTopKeys ∧
      (initialJsonFields.all fun kv => kv.1 == "invoice_value" || scalarDefault kv.2) = true ∧
      lookupField "invoice_value" initialJsonFields = some (.num 0) ∧
      lookupField "invoice_items" initialJsonFields = some (.arr []) :=
  ⟨rfl, rfl, rfl, rfl, rfl⟩

/-- Claim C6: whenever the parseInvoice call fails — it throws (for instance
on a timeout), or extraction produced nothing usable (null extractedData) —
handleParse leaves the editable JSON text of the Edit-State Store unchanged,
still holding the prior or initial template. -/
theorem handleParse_failure_preserves_jsonData
    (st : SessionState) (outcome : ParseOutcome)
    (h : outcome = .ok none ∨ ∃ msg, outcome = .error msg) :
    (handleParse st outcome).jsonData = st.jsonData := by
  obtain ⟨img, fn, jd, il, sta⟩ := st
  rcases h with h | ⟨msg, h⟩ <;> subst h <;> cases img <;> rfl

/-- Witness for C6: a timed-out call leaves the prior text in place. -/
theorem handleParse_failure_preserves_jsonData_witness :
    (handleParse ⟨some "data:image/png;base64,AAAA", some "inv.pdf", "prior text",
        false, "Ready"⟩ (.error "The model timed out")).jsonData = "prior text" :=
  handleParse_failure_preserves_jsonData _ _ (Or.inr ⟨"The model timed out", rfl⟩)

/-- Claim C7: for every document with at least one page, convertPdfToImage
renders page 1 only — the output is the same whatever the later pages are —
at the fixed uniform scale factor 1.5 (the rational 3 / 2), and its output is
the single string token data:image/png;base64,(payload), where image/png is
the lossless raster media type and the payload is the standard base64
encoding of the raster bytes. -/
theorem convertPdfToImage_page_one
    (pages : List PdfPage) (p : PdfPage) (rest : List PdfPage) (h : pages = p :: rest) :
    convertPdfToImage pages =
      some (pngDataUrlHead ++ base64Encode (p.render (getViewport p pdfScale))) ∧
      pdfScale = 3 / 2 ∧
      pngDataUrlHead = "data:image/png;base64," ∧
      convertPdfToImage pages = convertPdfToImage [p] := by
  subst h
  exact ⟨rfl, by norm_num [pdfScale], rfl, rfl⟩

/-- Witness for C7 at a one-page document with a three-byte rendering. -/
theorem convertPdfToImage_page_one_witness :
    convertPdfToImage [samplePage] =
      some (pngDataUrlHead ++ base64Encode (samplePage.render (getViewport samplePage pdfScale))) ∧
      pdfScale = 3 / 2 ∧
      pngDataUrlHead = "data:image/png;base64," ∧
      convertPdfToImage [samplePage] = convertPdfToImage [samplePage] :=
  convertPdfToImage_page_one [samplePage] samplePage [] rfl

/-- Claim C8: for every validated extraction result, handleParse on a
successful outcome sets the editable JSON text of the Edit-State Store to
JSON.stringify of that result with stable 2-space indentation (the stringify
of this development), and the result preserves the schema field declaration
order; the serialization becomes the new current value. -/
theorem handleParse_success_sets_pretty_json
    (st : SessionState) (img : String) (kvs out : List (String × Json))
    (himg : st.invoiceImage = some img)
    (hok : normalize (.obj kvs) = .ok (.obj out)) :
    (handleParse st (.ok (some (.obj out)))).jsonData = stringify (.obj out) ∧
      out.map Prod.fst = schemaTopKeys := by
  constructor
  · obtain ⟨i, fn, jd, il, sta⟩ := st
    simp only at himg
    subst himg
    rfl
  · obtain ⟨out2, heq, hkeys⟩ := normalize_ok_shape hok
    injection heq with h2
    subst h2
    exact hkeys

/-- Witness for C8 at the sample validated result. -/
theorem handleParse_success_sets_pretty_json_witness :
    (handleParse ⟨some "img", some "inv.pdf", "prior", true, "Extracting"⟩
        (.ok (some (.obj sampleResultFields)))).jsonData =
      stringify (.obj sampleResultFields) ∧
      sampleResultFields.map Prod.fst = schemaTopKeys :=
  handleParse_success_sets_pretty_json _ "img" sampleResultFields sampleResultFields rfl rfl

/-- Claim C9: for every selected file whose declared media type is not
application/pdf, handleFileSelect rejects the upload before rasterization
(the conversion-started flag is false) and leaves the whole session state —
raster image, file name and editable JSON text — unchanged. -/
theorem handleFileSelect_non_pdf_unchanged (st : SessionState) (f : FileInfo)
    (h : f.type ≠ "application/pdf") :
    handleFileSelect st (some f) = (st, false) := by
  simp [handleFileSelect, h]

/-- Witness for C9: selecting a PNG image changes nothing. -/
theorem handleFileSelect_non_pdf_unchanged_witness :
    handleFileSelect ⟨some "img", some "old.pdf", "edited", false, "Ready"⟩
        (some ⟨"photo.png", "image/png"⟩) =
      (⟨some "img", some "old.pdf", "edited", false, "Ready"⟩, false) :=
  handleFileSelect_non_pdf_unchanged _ _ (by decide)

/-- Claim C10: for every selected file whose declared media type is
application/pdf, handleFileSelect immediately — before rasterization or
extraction, conversion merely being started — resets the editable JSON text
to the initial all-default template, clears the previous raster image, and
stores the new file name, discarding any prior extraction result or user
edit. -/
theorem handleFileSelect_pdf_resets (st : SessionState) (f : FileInfo)
    (h : f.type = "application/pdf") :
    handleFileSelect st (some f) =
      ({ st with fileName := some f.name,
                 invoiceImage := none,
                 jsonData := initialJsonText,
                 status := "Converting PDF to image..." }, true) := by
  simp [handleFileSelect, h]

/-- Witness for C10: selecting a PDF resets the session to the template. -/
theorem handleFileSelect_pdf_resets_witness :
    handleFileSelect ⟨some "oldimg", some "old.pdf", "user edits", false, "Ready"⟩
        (some ⟨"invoice.pdf", "application/pdf"⟩) =
      (⟨none, some "invoice.pdf", initialJsonText, false, "Converting PDF to image..."⟩, true) :=
  handleFileSelect_pdf_resets _ _ rfl

end Studio
